import Mathlib

/-!
Verification of the skyplot wind-globe core (`src/app/components/windplot.tsx`).

Shallow embedding conventions:
* JS numbers are modelled as `ℚ`; IEEE `NaN` (the "missing value" sentinel) is
  modelled by `Option ℚ` with `none` for NaN.  The arithmetic used by the
  sampler (`+`, `*`) propagates NaN, including `NaN * 0 = NaN`, which the
  `Option` operations below reproduce exactly.
* A `Float32Array` is a `List (Option ℚ)`; reading out of bounds yields JS
  `undefined`, which the subsequent arithmetic turns into NaN, so the read is
  modelled as returning `none`.
* The JS remainder `%` on numbers truncates toward zero (sign of the
  dividend); on integers it is `Int.tmod`.
* `Math.floor` is `⌊·⌋ : ℚ → ℤ`, `Math.round` is `⌊· + 1/2⌋` (JS rounds
  half-way cases toward +∞), `Math.min`/`Math.max` are `min`/`max`.
* Transcendental functions (`Math.cos`, `Math.sqrt`) are passed in as oracle
  parameters `ℚ → ℚ`; no claim below depends on their values.
-/

namespace Skyplot

/-- Constant `const PARTICLE_LIFE = 601`. -/
def PARTICLE_LIFE : ℚ := 601

/-- Constant `const SPEED_FACTOR = 0.008`. -/
def SPEED_FACTOR : ℚ := 0.008

/-- Constant `const GLOBE_RADIUS = 200`. -/
def GLOBE_RADIUS : ℚ := 200

/-- Constant `const TEMP_OVERLAY_ALPHA = 0.35`. -/
def TEMP_OVERLAY_ALPHA : ℚ := 0.35

/-- Constant `const OVERLAY_ALPHA = 0.4`. -/
def OVERLAY_ALPHA : ℚ := 0.4

/-- A JS number that may be NaN: `none` is NaN / missing. -/
abbrev Sample := Option ℚ

/-- Multiplication of a possibly-NaN number by a (finite) number.
NaN is absorbing, faithful to IEEE (`NaN * x = NaN`, even for `x = 0`). -/
def smul (a : Sample) (q : ℚ) : Sample := a.map (· * q)

/-- Addition of possibly-NaN numbers; NaN is absorbing. -/
def sadd (a b : Sample) : Sample :=
  match a, b with
  | some x, some y => some (x + y)
  | _, _ => none

/-- Read `A[k]` from a `Float32Array`: out-of-bounds (including negative
indices) gives `undefined`, which downstream arithmetic makes NaN, so the
read is modelled as `none`. -/
def arrGet (A : List Sample) (k : ℤ) : Sample :=
  if k < 0 then none else A[k.toNat]?.getD none

/-- Read with a natural index (used by the loader's `S` computation). -/
def arrGetN (A : List Sample) (k : ℕ) : Sample := A[k]?.getD none

/-- JS truncation toward zero of a number, as used by the `%` operator. -/
def ratTrunc (q : ℚ) : ℤ := if 0 ≤ q then ⌊q⌋ else ⌈q⌉

/-- The JS remainder `x % n` on numbers: `x - n * trunc (x / n)`.
(The callers below only use `n = 360`, so the `n = 0` NaN case of JS
never arises.) -/
def jsmodQ (x n : ℚ) : ℚ := x - n * (ratTrunc (x / n) : ℚ)

/-- Mathematical (floor) remainder on `ℚ`, used to characterise
`normalizeLon`. -/
def emodQ (x n : ℚ) : ℚ := x - n * (⌊x / n⌋ : ℚ)

/-- Function `normalizeLon` from windplot.tsx:
```
let normalized = ((lon + 180) % 360) - 180;
if (normalized < -180) normalized += 360;
if (normalized > 180) normalized -= 360;
```
-/
def normalizeLon (lon : ℚ) : ℚ :=
  let normalized := jsmodQ (lon + 180) 360 - 180
  let normalized := if normalized < -180 then normalized + 360 else normalized
  if normalized > 180 then normalized - 360 else normalized

/-- Grid geometry header (`GridMeta` in windplot.tsx). -/
structure GridMeta where
  nx : ℤ
  ny : ℤ
  lo1 : ℚ
  la1 : ℚ
  dx : ℚ
  dy : ℚ
deriving DecidableEq

/-- Cell index `const idx = (j, i) => j * nx + ((i + nx) % nx)`; the JS integer `%`
is truncated division remainder, i.e. `Int.tmod`. -/
def idx (m : GridMeta) (j i : ℤ) : ℤ := j * m.nx + Int.tmod (i + m.nx) m.nx

/-- The fractional grid coordinates computed by `windAt`:
`i = ((lon - lo1 + 360) % 360) / dx`, `j = (la1 - lat) / dy`,
after `lon = normalizeLon(lon)`. -/
def gridCoords (m : GridMeta) (lon lat : ℚ) : ℚ × ℚ :=
  let lon' := normalizeLon lon
  (jsmodQ (lon' - m.lo1 + 360) 360 / m.dx, (m.la1 - lat) / m.dy)

/-- The four samples gathered by `windAt`'s `interp`:
`g00 = A[idx(j0, i0)]`, `g10 = A[idx(j0, i0+1)]`,
`g01 = A[idx(j0+1, i0)]`, `g11 = A[idx(j0+1, i0+1)]`. -/
def gather (m : GridMeta) (A : List Sample) (j0 i0 : ℤ) :
    Sample × Sample × Sample × Sample :=
  (arrGet A (idx m j0 i0), arrGet A (idx m j0 (i0 + 1)),
   arrGet A (idx m (j0 + 1) i0), arrGet A (idx m (j0 + 1) (i0 + 1)))

/-- The four bilinear neighbours of a sampling position `(lon, lat)`. -/
def neighborSamples (m : GridMeta) (A : List Sample) (lon lat : ℚ) :
    Sample × Sample × Sample × Sample :=
  let c := gridCoords m lon lat
  gather m A ⌊c.2⌋ ⌊c.1⌋

/-- The bilinear blend of `windAt`'s `interp`:
`g00*(1-fi)*(1-fj) + g10*fi*(1-fj) + g01*(1-fi)*fj + g11*fi*fj`,
with NaN propagating through every term. -/
def interp4 (g : Sample × Sample × Sample × Sample) (fi fj : ℚ) : Sample :=
  sadd (sadd (sadd (smul (smul g.1 (1 - fi)) (1 - fj))
                   (smul (smul g.2.1 fi) (1 - fj)))
             (smul (smul g.2.2.1 (1 - fi)) fj))
       (smul (smul g.2.2.2 fi) fj)

/-- Sampler `windAt(lon, lat)` from windplot.tsx: normalize the longitude, compute
fractional grid coordinates, floor them, and bilinearly interpolate the `U`
and `V` arrays.  Returns the `(u, v)` pair, `none` for a NaN component. -/
def windAt (m : GridMeta) (U V : List Sample) (lon lat : ℚ) : Sample × Sample :=
  let c := gridCoords m lon lat
  let i0 : ℤ := ⌊c.1⌋
  let j0 : ℤ := ⌊c.2⌋
  let fi : ℚ := c.1 - (i0 : ℚ)
  let fj : ℚ := c.2 - (j0 : ℚ)
  (interp4 (gather m U j0 i0) fi fj, interp4 (gather m V j0 i0) fi fj)

/-- The `WindHeader` interface of windplot.tsx. -/
structure WindHeader where
  nx : ℤ
  ny : ℤ
  lo1 : ℚ
  la1 : ℚ
  dx : ℚ
  dy : ℚ
  surface1Type : ℤ
  surface1Value : ℚ
deriving DecidableEq

/-- The `WindObj` interface: one parsed JSON object `{header, data}`.
`data` entries are `Option ℚ`: `none` models both a JSON `null` (which
`to32`'s `x ?? NaN` turns into NaN) and a NaN already present. -/
structure WindObj where
  header : WindHeader
  data : List Sample

/-- One entry of the `levels` state array: `{label, U, V, S}`. -/
structure WindLevel where
  label : String
  U : List Sample
  V : List Sample
  S : List Sample

/-- One entry of the `tempLevels` state array: `{label, T}`. -/
structure TempLevel where
  label : String
  T : List Sample

/-- A fetched temperature JSON object; `none` at the outer level models a
fetch/parse failure swallowed by the loader's `try/catch` (or a falsy
`tObj`), and the inner `Option`s model absent `header` / `data` fields. -/
structure TempObj where
  header : Option WindHeader
  data : Option (List Sample)

/-- Level label `surface1Type === 103 ? `${surface1Value} m` : `${surface1Value} hPa``. -/
def mkLabel (h : WindHeader) : String :=
  if h.surface1Type = 103 then toString h.surface1Value ++ " m"
  else toString h.surface1Value ++ " hPa"

/-- The wind-speed array `S` computed by the loader:
`S[j] = (isFinite(U[j]) && isFinite(V[j])) ? sqrt(u*u + v*v) : NaN`,
with `sqrtO` the square-root oracle. -/
def computeS (sqrtO : ℚ → ℚ) (U V : List Sample) : List Sample :=
  (List.range U.length).map fun k =>
    match arrGetN U k, arrGetN V k with
    | some u, some v => some (sqrtO (u * u + v * v))
    | _, _ => none

/-- The wind data loader's per-file loop (windplot.tsx lines 165-204),
applied to the already-fetched and parsed file contents: each file parses
to an array of `WindObj`s, `vObj = uv[0]`, `uObj = uv[1]`, and the file is
skipped exactly when either is absent (`if (!vObj || !uObj) continue`).
No property of the header (nx, dx, data length) is inspected. -/
def loadWindLevels (sqrtO : ℚ → ℚ) (files : List (List WindObj)) : List WindLevel :=
  files.foldl
    (fun next file =>
      match file[0]?, file[1]? with
      | some vObj, some uObj =>
          next ++ [{ label := mkLabel vObj.header, U := uObj.data, V := vObj.data,
                     S := computeS sqrtO uObj.data vObj.data }]
      | _, _ => next)
    []

/-- The temperature data loader's per-file loop (windplot.tsx lines
207-246): a file is skipped exactly when the fetch threw (outer `none`) or
`!tObj || !tObj.header || !tObj.data`. -/
def loadTempLevels (files : List (Option TempObj)) : List TempLevel :=
  files.foldl
    (fun next fo =>
      match fo with
      | some tObj =>
          match tObj.header, tObj.data with
          | some h, some d => next ++ [{ label := mkLabel h, T := d }]
          | _, _ => next
      | none => next)
    []

/-- JS `Math.round`: round half-way cases toward positive infinity. -/
def jround (q : ℚ) : ℤ := ⌊q + 1/2⌋

/-- Kelvin conversion `const tempC = tempValue > 100 ? tempValue - 273.15 : tempValue`. -/
def tempToC (tv : ℚ) : ℚ := if tv > 100 then tv - 273.15 else tv

/-- Clamp `const clampedTemp = Math.max(minTemp, Math.min(maxTemp, tempC))`
with `minTemp = -80`, `maxTemp = 50`. -/
def clampTemp (c : ℚ) : ℚ := max (-80) (min 50 c)

/-- The normalized position of a temperature inside the ramp:
`t = (clampedTemp - minTemp) / (maxTemp - minTemp)`. -/
def tempT (tv : ℚ) : ℚ := (clampTemp (tempToC tv) - (-80)) / (50 - (-80))

/-- The 11-segment piecewise-linear RGB ramp of `tempColorScale`
(windplot.tsx lines 254-332), with every branch carried over verbatim;
`Math.round` is `jround`. -/
def tempRGB (t : ℚ) : ℤ × ℤ × ℤ :=
  if t < 0.10 then
    let scale := t / 0.10
    (jround (80 + scale * 30), jround (20 + scale * 40), jround (120 + scale * 60))
  else if t < 0.25 then
    let scale := (t - 0.10) / 0.15
    (jround (110 * (1 - scale) + 50 * scale), jround (60 * (1 - scale) + 120 * scale),
     jround (180 * (1 - scale) + 220 * scale))
  else if t < 0.40 then
    let scale := (t - 0.25) / 0.15
    (jround (50 * (1 - scale) + 80 * scale), jround (120 * (1 - scale) + 180 * scale),
     jround (220 * (1 - scale) + 240 * scale))
  else if t < 0.50 then
    let scale := (t - 0.40) / 0.10
    (jround (80 * (1 - scale) + 100 * scale), jround (180 * (1 - scale) + 220 * scale),
     jround (240 * (1 - scale) + 240 * scale))
  else if t < 0.60 then
    let scale := (t - 0.50) / 0.10
    (jround (100 * (1 - scale) + 160 * scale), jround (220 * (1 - scale) + 240 * scale),
     jround (240 * (1 - scale) + 180 * scale))
  else if t < 0.70 then
    let scale := (t - 0.60) / 0.10
    (jround (160 * (1 - scale) + 220 * scale), jround (240 * (1 - scale) + 250 * scale),
     jround (180 * (1 - scale) + 120 * scale))
  else if t < 0.78 then
    let scale := (t - 0.70) / 0.08
    (jround (220 * (1 - scale) + 255 * scale), jround (250 * (1 - scale) + 240 * scale),
     jround (120 * (1 - scale) + 60 * scale))
  else if t < 0.86 then
    let scale := (t - 0.78) / 0.08
    (jround 255, jround (240 * (1 - scale) + 160 * scale),
     jround (60 * (1 - scale) + 20 * scale))
  else if t < 0.93 then
    let scale := (t - 0.86) / 0.07
    (jround (255 * (1 - scale) + 250 * scale), jround (160 * (1 - scale) + 80 * scale),
     jround (20 * (1 - scale) + 15 * scale))
  else if t < 0.97 then
    let scale := (t - 0.93) / 0.04
    (jround (250 * (1 - scale) + 220 * scale), jround (80 * (1 - scale) + 30 * scale),
     jround (15 * (1 - scale) + 10 * scale))
  else
    let scale := (t - 0.97) / 0.03
    (jround (220 * (1 - scale) + 180 * scale), jround (30 * (1 - scale) + 10 * scale),
     jround (10 * (1 - scale) + 5 * scale))

/-- Function `tempColorScale(tempValue, alpha)` from windplot.tsx: a non-finite
input (`none`) yields transparent black; otherwise convert Kelvin,
clamp to `[-80, 50]`, normalize, run the ramp, and append
`Math.floor(alpha * 255)`. -/
def tempColorScale (tempValue : Sample) (alpha : ℚ) : ℤ × ℤ × ℤ × ℤ :=
  match tempValue with
  | none => (0, 0, 0, 0)
  | some tv =>
      let c := tempRGB (tempT tv)
      (c.1, c.2.1, c.2.2, ⌊alpha * 255⌋)

/-- The dashboard's overlay mode selector. -/
inductive OverlayMode | wind | temperature | none
deriving DecidableEq

/-- Function `trailColor(u, v)` from windplot.tsx: despite its `(u, v)` parameters
it returns a constant white, `rgba(255,255,255,0.9)` when the temperature
overlay is active and `rgba(255,255,255,0.7)` otherwise. -/
def trailColor (mode : OverlayMode) (u v : ℚ) : ℤ × ℤ × ℤ × ℚ :=
  if mode = OverlayMode.temperature then (255, 255, 255, 0.9)
  else (255, 255, 255, 0.7)

/-- The per-segment `ctx.globalAlpha` of `updateParticles`:
`Math.min(1.0, 0.1 + (PARTICLE_LIFE - p.age) / PARTICLE_LIFE * 0.9)`. -/
def trailAlpha (age : ℚ) : ℚ :=
  min 1 (0.1 + (PARTICLE_LIFE - age) / PARTICLE_LIFE * 0.9)

/-- A tracer particle `{lon, lat, age}`. -/
structure Particle where
  lon : ℚ
  lat : ℚ
  age : ℚ
deriving DecidableEq

/-- The initial population entry
`{lon: random()*360-180, lat: random()*180-90, age: random()*PARTICLE_LIFE}`,
with the three `Math.random()` draws passed in as `r1 r2 r3 ∈ [0,1)`. -/
def initParticle (r1 r2 r3 : ℚ) : Particle :=
  ⟨r1 * 360 - 180, r2 * 180 - 90, r3 * PARTICLE_LIFE⟩

/-- Function `recycle(i)`'s replacement particle:
`{lon: random()*360-180, lat: random()*180-90, age: 0}`. -/
def spawnParticle (r1 r2 : ℚ) : Particle :=
  ⟨r1 * 360 - 180, r2 * 180 - 90, 0⟩

/-- The per-particle body of `updateParticles` after a finite `(u, v)`
sample (windplot.tsx lines 920-966), returning the stored particle and
the new `prevXY` trail entry (`none` = the NaN pair of `clearPrev`).
`cosd` is the `Math.cos(degToRad ·)` oracle, `visible` the camera-facing
test of both endpoints, `project` the `worldToScreen` projection
(`none` when `vec.z > 1`).  The `clearPrev(i)` inside the pole branch is
on every path followed by either a recycle, a visibility/projection
clear, or an overwrite with the fresh screen position, so it never
survives into the returned trail state; segment drawing reads the stale
pre-tick `sx0` and is modelled separately (`trailColor`, `trailAlpha`). -/
def stepAdvect (cosd : ℚ → ℚ) (visible : ℚ → ℚ → Bool)
    (project : ℚ → ℚ → Option (ℚ × ℚ)) (r1 r2 : ℚ) (p : Particle) (u v : ℚ) :
    Particle × Option (ℚ × ℚ) :=
  let prevLon := p.lon
  let prevLat := p.lat
  let lonMoved := jsmodQ (p.lon + u * SPEED_FACTOR / cosd p.lat + 180) 360 - 180
  let latMoved := p.lat + v * SPEED_FACTOR
  let crossed := latMoved > 90 ∨ latMoved < -90
  let lat1 := if crossed then max (-89.999) (min 89.999 latMoved) else latMoved
  let lon1 := if crossed then jsmodQ (lonMoved + 180) 360 - 180 else lonMoved
  let age1 := p.age + 1
  if age1 > PARTICLE_LIFE then (spawnParticle r1 r2, Option.none)
  else
    let p1 : Particle := ⟨lon1, lat1, age1⟩
    if visible lon1 lat1 && visible prevLon prevLat then
      match project lon1 lat1 with
      | Option.none => (p1, Option.none)
      | some s => (p1, some s)
    else (p1, Option.none)

/-- One full `updateParticles` step for one particle: sample the wind
field at the particle's position; a missing component recycles the
particle (`if (!isFinite(u) || !isFinite(v)) return recycle(i)`),
otherwise advect via `stepAdvect`. -/
def stepParticle (cosd : ℚ → ℚ) (m : GridMeta) (U V : List Sample)
    (visible : ℚ → ℚ → Bool) (project : ℚ → ℚ → Option (ℚ × ℚ))
    (r1 r2 : ℚ) (p : Particle) : Particle × Option (ℚ × ℚ) :=
  match windAt m U V p.lon p.lat with
  | (some u, some v) => stepAdvect cosd visible project r1 r2 p u v
  | _ => (spawnParticle r1 r2, Option.none)

/-- A world-space vector (`THREE.Vector3` restricted to the operations the
overlay uses). -/
structure Vec3 where
  x : ℚ
  y : ℚ
  z : ℚ
deriving DecidableEq

/-- Dot product `a.dot(b)`. -/
def dot3 (a b : Vec3) : ℚ := a.x * b.x + a.y * b.y + a.z * b.z

/-- Vector sum `a.add(b)`. -/
def addV (a b : Vec3) : Vec3 := ⟨a.x + b.x, a.y + b.y, a.z + b.z⟩

/-- Scaling `a.multiplyScalar(t)`. -/
def scaleV (t : ℚ) (a : Vec3) : Vec3 := ⟨t * a.x, t * a.y, t * a.z⟩

/-- Normalization `v.normalize()`: THREE divides by `length || 1`, so a zero length
divides by 1.  `sqrtO` is the `Math.sqrt` oracle. -/
def normalizeV (sqrtO : ℚ → ℚ) (a : Vec3) : Vec3 :=
  let len := sqrtO (dot3 a a)
  let d := if len = 0 then 1 else len
  ⟨a.x / d, a.y / d, a.z / d⟩

/-- Coefficient `const b = 2.0 * oc.dot(rayDirection)` with `oc = camera.position`. -/
def sphereB (o d : Vec3) : ℚ := 2 * dot3 o d

/-- Discriminant `b*b - 4*a*c` for the ray/globe-sphere quadratic, with
`a = rayDirection.dot(rayDirection)` and
`c = oc.dot(oc) - GLOBE_RADIUS * GLOBE_RADIUS`. -/
def sphereDisc (o d : Vec3) : ℚ :=
  sphereB o d * sphereB o d - 4 * dot3 d d * (dot3 o o - GLOBE_RADIUS * GLOBE_RADIUS)

/-- Root `const t = (-b - Math.sqrt(discriminant)) / (2 * a)`: the nearest
root of the quadratic. -/
def sphereNearT (sqrtO : ℚ → ℚ) (o d : Vec3) : ℚ :=
  (-(sphereB o d) - sqrtO (sphereDisc o d)) / (2 * dot3 d d)

/-- Hit point `intersectionPoint = camera.position + t * rayDirection`. -/
def sphereHit (sqrtO : ℚ → ℚ) (o d : Vec3) : Vec3 :=
  addV o (scaleV (sphereNearT sqrtO o d) d)

/-- One RGBA pixel of the overlay's `ImageData`. -/
abbrev RGBA := ℤ × ℤ × ℤ × ℤ

/-- The initial value of every `ImageData` pixel: fully transparent
black. -/
def transparentRGBA : RGBA := (0, 0, 0, 0)

/-- The guard spine of one sample point of `renderAirModeOverlay`
(windplot.tsx lines 642-674): the three tests `discriminant >= 0`,
`t > 0`, and `normal.dot(camDir) > 0.1` in their source nesting.  `shade`
abstracts everything inside the innermost branch (lon/lat conversion,
field sampling and colouring, lines 675 onward); it returns `none` when
that branch writes nothing (e.g. a non-finite wind sample). -/
def overlayBlockColor (sqrtO : ℚ → ℚ) (shade : Vec3 → Option RGBA)
    (camPos d : Vec3) : Option RGBA :=
  if sphereDisc camPos d ≥ 0 then
    if sphereNearT sqrtO camPos d > 0 then
      let p := sphereHit sqrtO camPos d
      if dot3 (normalizeV sqrtO p) (normalizeV sqrtO camPos) > 0.1 then shade p
      else Option.none
    else Option.none
  else Option.none

/-- The overlay's pixel buffer, addressed `(px, py)`. -/
abbrev Buffer := ℕ → ℕ → RGBA

/-- The inner pixel loops
`for (dx = 0; dx < step && x + dx < width; dx++) for (dy = ...)`:
write colour `c` to every buffer pixel of the block at `(x, y)`. -/
def writeBlock (width height step : ℕ) (c : RGBA) (x y : ℕ) (buf : Buffer) : Buffer :=
  fun px py =>
    if x ≤ px ∧ px < x + step ∧ px < width ∧ y ≤ py ∧ py < y + step ∧ py < height then c
    else buf px py

/-- Process one coarse sample point: run the guard spine on the block's
ray and, if a colour is produced, write it to the block's pixels. -/
def processBlock (sqrtO : ℚ → ℚ) (shade : Vec3 → Option RGBA) (camPos : Vec3)
    (ray : ℕ → ℕ → Vec3) (width height step : ℕ) (buf : Buffer) (x y : ℕ) : Buffer :=
  match overlayBlockColor sqrtO shade camPos (ray x y) with
  | some c => writeBlock width height step c x y buf
  | Option.none => buf

/-- The values taken by `for (x = 0; x < bound; x += step)`: the
multiples of `step` below `bound`, in ascending order. -/
def blockStarts (bound step : ℕ) : List ℕ :=
  (List.range bound).filter (fun a => a % step == 0)

/-- The full `renderAirModeOverlay` pixel pass: iterate the coarse sample
grid over a buffer initialised to transparent black (`createImageData`
zero-fills).  `ray x y` abstracts the NDC conversion and camera
unprojection producing the normalized ray direction for sample `(x,y)`. -/
def renderAirModeOverlay (sqrtO : ℚ → ℚ) (shade : Vec3 → Option RGBA)
    (camPos : Vec3) (ray : ℕ → ℕ → Vec3) (width height step : ℕ) : Buffer :=
  (blockStarts width step).foldl
    (fun b x =>
      (blockStarts height step).foldl
        (fun b2 y => processBlock sqrtO shade camPos ray width height step b2 x y) b)
    (fun _ _ => transparentRGBA)

@[simp]
theorem smul_none (q : ℚ) : smul none q = none := rfl

@[simp]
theorem smul_some (x q : ℚ) : smul (some x) q = some (x * q) := rfl

@[simp]
theorem sadd_none_left (b : Sample) : sadd none b = none := by
  cases b <;> rfl

@[simp]
theorem sadd_none_right (a : Sample) : sadd a none = none := by
  cases a <;> rfl

@[simp]
theorem sadd_some (x y : ℚ) : sadd (some x) (some y) = some (x + y) := rfl

theorem interp4_none {g : Sample × Sample × Sample × Sample} (fi fj : ℚ)
    (h : g.1 = none ∨ g.2.1 = none ∨ g.2.2.1 = none ∨ g.2.2.2 = none) :
    interp4 g fi fj = none := by
  obtain ⟨a, b, c, d⟩ := g
  rcases h with h | h | h | h <;> simp_all [interp4]

theorem interp4_zero_offsets (a b c d : ℚ) :
    interp4 (some a, some b, some c, some d) 0 0 = some a := by
  simp [interp4]

theorem emodQ_eq_fract (x : ℚ) : emodQ x 360 = 360 * Int.fract (x / 360) := by
  simp only [emodQ, Int.fract]
  ring

theorem emodQ_nonneg (x : ℚ) : 0 ≤ emodQ x 360 := by
  rw [emodQ_eq_fract]
  have := Int.fract_nonneg (x / 360)
  linarith

theorem emodQ_lt (x : ℚ) : emodQ x 360 < 360 := by
  rw [emodQ_eq_fract]
  have := Int.fract_lt_one (x / 360)
  linarith

theorem emodQ_add_360 (x : ℚ) : emodQ (x + 360) 360 = emodQ x 360 := by
  unfold emodQ
  have h : (x + 360) / 360 = x / 360 + 1 := by ring
  rw [h, Int.floor_add_one]
  push_cast
  ring

theorem jsmodQ_of_nonneg (x : ℚ) (h : 0 ≤ x / 360) : jsmodQ x 360 = emodQ x 360 := by
  unfold jsmodQ emodQ ratTrunc
  rw [if_pos h]

theorem jsmodQ_of_neg (x : ℚ) (h : ¬ 0 ≤ x / 360) :
    jsmodQ x 360 = emodQ x 360 ∨ jsmodQ x 360 = emodQ x 360 - 360 := by
  unfold jsmodQ emodQ ratTrunc
  rw [if_neg h]
  have h1 := Int.self_sub_floor (x / 360)
  rcases Int.fract_eq_zero_or_add_one_sub_ceil (x / 360) with hf | hf
  · left
    have h2 : x / 360 = ((⌊x / 360⌋ : ℤ) : ℚ) := by linarith
    rw [h2, Int.ceil_intCast, Int.floor_intCast]
  · right
    have h2 : ((⌈x / 360⌉ : ℤ) : ℚ) = ((⌊x / 360⌋ : ℤ) : ℚ) + 1 := by linarith
    rw [h2]
    ring

theorem normalizeLon_eq (lon : ℚ) : normalizeLon lon = emodQ (lon + 180) 360 - 180 := by
  have hlb := emodQ_nonneg (lon + 180)
  have hub := emodQ_lt (lon + 180)
  simp only [normalizeLon]
  by_cases h0 : 0 ≤ (lon + 180) / 360
  · rw [jsmodQ_of_nonneg _ h0,
      if_neg (show ¬(emodQ (lon + 180) 360 - 180 < -180) by linarith),
      if_neg (show ¬(emodQ (lon + 180) 360 - 180 > 180) by linarith)]
  · rcases jsmodQ_of_neg _ h0 with h | h
    · rw [h,
        if_neg (show ¬(emodQ (lon + 180) 360 - 180 < -180) by linarith),
        if_neg (show ¬(emodQ (lon + 180) 360 - 180 > 180) by linarith)]
    · rw [h,
        if_pos (show emodQ (lon + 180) 360 - 360 - 180 < -180 by linarith),
        if_neg (show ¬(emodQ (lon + 180) 360 - 360 - 180 + 360 > 180) by linarith)]
      ring

theorem normalizeLon_add_360 (lon : ℚ) : normalizeLon (lon + 360) = normalizeLon lon := by
  rw [normalizeLon_eq, normalizeLon_eq,
    show lon + 360 + 180 = lon + 180 + 360 by ring, emodQ_add_360]

theorem normalizeLon_mem (lon : ℚ) : -180 ≤ normalizeLon lon ∧ normalizeLon lon < 180 := by
  rw [normalizeLon_eq]
  have h1 := emodQ_nonneg (lon + 180)
  have h2 := emodQ_lt (lon + 180)
  exact ⟨by linarith, by linarith⟩

/-- C4: sampling is invariant under a 360° longitude shift — `windAt`
first normalizes the longitude, and the normalized longitude always lies
in `[-180, 180)`.  This holds for every grid and every latitude, in
particular for latitudes inside the grid's bounds. -/
theorem windAt_lon_wraparound (m : GridMeta) (U V : List Sample) (lon lat : ℚ) :
    windAt m U V (lon + 360) lat = windAt m U V lon lat ∧
    -180 ≤ normalizeLon lon ∧ normalizeLon lon < 180 := by
  refine ⟨?_, normalizeLon_mem lon⟩
  unfold windAt gridCoords
  rw [normalizeLon_add_360]

/-- C1: if any of the four bilinear neighbour cells gathered for a
component is missing (NaN), `windAt` returns a missing (NaN) value for
that component — the missing value is never replaced by zero or any
substitute.  Holds for every sampling position, hence for all fractional
offsets. -/
theorem windAt_missing_propagation (m : GridMeta) (U V : List Sample) (lon lat : ℚ) :
    ((neighborSamples m U lon lat).1 = none ∨ (neighborSamples m U lon lat).2.1 = none ∨
      (neighborSamples m U lon lat).2.2.1 = none ∨ (neighborSamples m U lon lat).2.2.2 = none →
      (windAt m U V lon lat).1 = none) ∧
    ((neighborSamples m V lon lat).1 = none ∨ (neighborSamples m V lon lat).2.1 = none ∨
      (neighborSamples m V lon lat).2.2.1 = none ∨ (neighborSamples m V lon lat).2.2.2 = none →
      (windAt m U V lon lat).2 = none) := by
  constructor <;> intro h <;> exact interp4_none _ _ h

/-- Witness for C1: on a 2×2 grid whose `U` array has a missing cell next
to the sampled block, `windAt` at the block's midpoint returns missing. -/
theorem windAt_missing_propagation_witness :
    (windAt ⟨2, 2, 0, 10, 10, 10⟩ [some 0, none, some 0, some 10]
      [some 1, some 1, some 1, some 1] 5 5).1 = none := by
  apply (windAt_missing_propagation ⟨2, 2, 0, 10, 10, 10⟩
    [some 0, none, some 0, some 10] [some 1, some 1, some 1, some 1] 5 5).1
  have hc : gridCoords ⟨2, 2, 0, 10, 10, 10⟩ 5 5 = (1/2, 1/2) := by
    have h1 : ((⌊(185 : ℚ) / 360⌋ : ℤ) : ℚ) = 0 := by norm_num
    have h2 : ((⌊(365 : ℚ) / 360⌋ : ℤ) : ℚ) = 1 := by norm_num
    simp only [gridCoords, normalizeLon, jsmodQ, ratTrunc]
    norm_num [h1, h2]
  right
  left
  show (neighborSamples ⟨2, 2, 0, 10, 10, 10⟩ [some 0, none, some 0, some 10] 5 5).2.1 = none
  simp only [neighborSamples]
  rw [hc]
  rw [show (⌊(1/2 : ℚ)⌋ : ℤ) = 0 by norm_num]
  decide

/-- Counterexample to C2 as stated: on the 2×2 grid of scenario 1 (all
four cells present and finite), the point `(lon, lat) = (0, 0)` has exact
integer grid coordinates `(i, j) = (0, 1)` with `j = ny - 1` inside the
claim's range `[0, ny - 1]`, its cell stores `3`, yet `windAt` returns
missing (the gather touches row `ny`, which is out of range) instead of
the stored value. -/
theorem windAt_gridpoint_counterexample :
    gridCoords ⟨2, 2, 0, 10, 10, 10⟩ 0 0 = (0, 1) ∧
    (0 : ℤ) ≤ 1 ∧ (1 : ℤ) ≤ (⟨2, 2, 0, 10, 10, 10⟩ : GridMeta).ny - 1 ∧
    arrGet [some 0, some 10, some 3, some 7] (idx ⟨2, 2, 0, 10, 10, 10⟩ 1 0) = some 3 ∧
    (windAt ⟨2, 2, 0, 10, 10, 10⟩ [some 0, some 10, some 3, some 7]
      [some 1, some 1, some 1, some 1] 0 0).1 = none := by
  have hc : gridCoords ⟨2, 2, 0, 10, 10, 10⟩ 0 0 = (0, 1) := by
    have h1 : ((⌊(180 : ℚ) / 360⌋ : ℤ) : ℚ) = 0 := by norm_num
    have h2 : ((⌊(360 : ℚ) / 360⌋ : ℤ) : ℚ) = 1 := by norm_num
    simp only [gridCoords, normalizeLon, jsmodQ, ratTrunc]
    norm_num [h1, h2]
  refine ⟨hc, by norm_num, by decide, by decide, ?_⟩
  rw [windAt, hc]
  norm_num
  rw [show gather ⟨2, 2, 0, 10, 10, 10⟩ [some 0, some 10, some 3, some 7] 1 0
      = (some 3, some 7, none, none) from by decide]
  exact interp4_none _ _ (Or.inr (Or.inr (Or.inl rfl)))

/-- C2 (amended): at a sampling position with exact integer grid
coordinates `(i0, j0)`, provided the row `j0` satisfies `0 ≤ j0 ≤ ny - 2`
(so that the always-gathered row `j0 + 1` is also on the grid) and all
four gathered neighbours are present, `windAt` returns exactly the value
stored in the corresponding cell of the `U` (resp. `V`) array. -/
theorem windAt_gridpoint_exact (m : GridMeta) (U V : List Sample) (lon lat : ℚ)
    (i0 j0 : ℤ)
    (hi : (gridCoords m lon lat).1 = (i0 : ℚ)) (hj : (gridCoords m lon lat).2 = (j0 : ℚ))
    (hr0 : 0 ≤ j0) (hr1 : j0 ≤ m.ny - 2)
    (hU : ∃ a b c d : ℚ, gather m U j0 i0 = (some a, some b, some c, some d))
    (hV : ∃ a b c d : ℚ, gather m V j0 i0 = (some a, some b, some c, some d)) :
    (windAt m U V lon lat).1 = arrGet U (idx m j0 i0) ∧
    (windAt m U V lon lat).2 = arrGet V (idx m j0 i0) := by
  obtain ⟨a, b, c, d, hUg⟩ := hU
  obtain ⟨a2, b2, c2, d2, hVg⟩ := hV
  have hfl1 : ⌊(gridCoords m lon lat).1⌋ = i0 := by rw [hi, Int.floor_intCast]
  have hfl2 : ⌊(gridCoords m lon lat).2⌋ = j0 := by rw [hj, Int.floor_intCast]
  simp only [windAt]
  rw [hfl1, hfl2, hi, hj, sub_self, sub_self, hUg, hVg]
  constructor
  · rw [interp4_zero_offsets]
    exact (congrArg (fun g => g.1) hUg).symm
  · rw [interp4_zero_offsets]
    exact (congrArg (fun g => g.1) hVg).symm

/-- Witness for the amended C2: scenario 1's grid sampled exactly at the
top-left grid point returns the stored values. -/
theorem windAt_gridpoint_exact_witness :
    (windAt ⟨2, 2, 0, 10, 10, 10⟩ [some 0, some 10, some 0, some 10]
      [some 1, some 2, some 3, some 4] 0 10).1 = some 0 ∧
    (windAt ⟨2, 2, 0, 10, 10, 10⟩ [some 0, some 10, some 0, some 10]
      [some 1, some 2, some 3, some 4] 0 10).2 = some 1 := by
  have hc : gridCoords ⟨2, 2, 0, 10, 10, 10⟩ 0 10 = (0, 0) := by
    have h1 : ((⌊(180 : ℚ) / 360⌋ : ℤ) : ℚ) = 0 := by norm_num
    have h2 : ((⌊(360 : ℚ) / 360⌋ : ℤ) : ℚ) = 1 := by norm_num
    simp only [gridCoords, normalizeLon, jsmodQ, ratTrunc]
    norm_num [h1, h2]
  have h := windAt_gridpoint_exact ⟨2, 2, 0, 10, 10, 10⟩
    [some 0, some 10, some 0, some 10] [some 1, some 2, some 3, some 4] 0 10 0 0
    (by rw [hc]; norm_num) (by rw [hc]; norm_num) (by decide) (by decide)
    ⟨0, 10, 0, 10, by decide⟩ ⟨1, 2, 3, 4, by decide⟩
  refine ⟨?_, ?_⟩
  · rw [h.1]; decide
  · rw [h.2]; decide

theorem arrGet_neg (A : List Sample) (k : ℤ) (h : k < 0) : arrGet A k = none := by
  unfold arrGet
  rw [if_pos h]

theorem arrGet_of_len_le (A : List Sample) (k : ℤ) (h : (A.length : ℤ) ≤ k) :
    arrGet A k = none := by
  unfold arrGet
  have h0 : 0 ≤ k := le_trans (Int.ofNat_nonneg _) h
  rw [if_neg (by omega)]
  have hk : A.length ≤ k.toNat := by omega
  simp [List.getElem?_eq_none hk]

theorem tmod_nonneg_eq_emod (a b : ℤ) (ha : 0 ≤ a) (hb : 0 ≤ b) : a.tmod b = a % b := by
  lift a to ℕ using ha
  lift b to ℕ using hb
  rfl

/-- C9 (amended): provided the floored column coordinate `i0` satisfies
`-nx ≤ i0` (automatic whenever `(nx + 1) · dx ≥ 360`, in particular for
global grids with `nx · dx = 360`) and the arrays are no longer than
`nx · ny`, the sampler is total: the column index is wrapped to the
mathematical modulus `i % nx`, and whenever a needed row index (`j0` or
`j0 + 1`) falls outside `[0, ny - 1]` the sampler returns missing for
both components rather than raising an error. -/
theorem windAt_row_missing (m : GridMeta) (U V : List Sample) (lon lat : ℚ)
    (hnx : 0 < m.nx)
    (hicol : -m.nx ≤ ⌊(gridCoords m lon lat).1⌋)
    (hU : (U.length : ℤ) ≤ m.nx * m.ny) (hV : (V.length : ℤ) ≤ m.nx * m.ny)
    (hrow : ⌊(gridCoords m lon lat).2⌋ < 0 ∨ m.ny - 1 < ⌊(gridCoords m lon lat).2⌋ + 1) :
    windAt m U V lon lat = (none, none) ∧
    (∀ j i : ℤ, -m.nx ≤ i → idx m j i = j * m.nx + i % m.nx) := by
  have hwrap : ∀ j i : ℤ, -m.nx ≤ i → idx m j i = j * m.nx + i % m.nx := by
    intro j i hi
    unfold idx
    rw [tmod_nonneg_eq_emod _ _ (by omega) (le_of_lt hnx)]
    have h2 : (i + m.nx * 1) % m.nx = i % m.nx := Int.add_mul_emod_self_left i m.nx 1
    rw [mul_one] at h2
    rw [h2]
  refine ⟨?_, hwrap⟩
  have key : ∀ A : List Sample, (A.length : ℤ) ≤ m.nx * m.ny →
      (gather m A ⌊(gridCoords m lon lat).2⌋ ⌊(gridCoords m lon lat).1⌋).1 = none ∨
      (gather m A ⌊(gridCoords m lon lat).2⌋ ⌊(gridCoords m lon lat).1⌋).2.1 = none ∨
      (gather m A ⌊(gridCoords m lon lat).2⌋ ⌊(gridCoords m lon lat).1⌋).2.2.1 = none ∨
      (gather m A ⌊(gridCoords m lon lat).2⌋ ⌊(gridCoords m lon lat).1⌋).2.2.2 = none := by
    intro A hA
    have hm1 : 0 ≤ (⌊(gridCoords m lon lat).1⌋ + m.nx) % m.nx :=
      Int.emod_nonneg _ (ne_of_gt hnx)
    have hm2 : (⌊(gridCoords m lon lat).1⌋ + m.nx) % m.nx < m.nx :=
      Int.emod_lt_of_pos _ hnx
    have ht1 : Int.tmod (⌊(gridCoords m lon lat).1⌋ + m.nx) m.nx
        = (⌊(gridCoords m lon lat).1⌋ + m.nx) % m.nx :=
      tmod_nonneg_eq_emod _ _ (by omega) (le_of_lt hnx)
    rcases hrow with hr | hr
    · -- row j0 ≤ -1: the g00 index is negative
      left
      show arrGet A (idx m ⌊(gridCoords m lon lat).2⌋ ⌊(gridCoords m lon lat).1⌋) = none
      apply arrGet_neg
      unfold idx
      rw [ht1]
      have hb : ⌊(gridCoords m lon lat).2⌋ * m.nx ≤ (-1) * m.nx :=
        mul_le_mul_of_nonneg_right (by omega) (le_of_lt hnx)
      rw [neg_one_mul] at hb
      linarith
    · -- row j0 + 1 ≥ ny: the g01 index is past the end of the array
      right; right; left
      show arrGet A (idx m (⌊(gridCoords m lon lat).2⌋ + 1) ⌊(gridCoords m lon lat).1⌋) = none
      apply arrGet_of_len_le
      unfold idx
      rw [ht1]
      have hb : m.ny * m.nx ≤ (⌊(gridCoords m lon lat).2⌋ + 1) * m.nx :=
        mul_le_mul_of_nonneg_right (by omega) (le_of_lt hnx)
      have hcomm : m.nx * m.ny = m.ny * m.nx := mul_comm _ _
      linarith
  simp only [windAt, Prod.mk.injEq]
  exact ⟨interp4_none _ _ (key U hU), interp4_none _ _ (key V hV)⟩

/-- Witness for the amended C9: on the 2×2 scenario grid with full-length
arrays, sampling at `lat = 0` needs rows `1` and `2` while only rows
`0..1` exist, so `windAt` returns `(none, none)`. -/
theorem windAt_row_missing_witness :
    windAt ⟨2, 2, 0, 10, 10, 10⟩ [some 0, some 10, some 3, some 7]
      [some 1, some 1, some 1, some 1] 0 0 = (none, none) := by
  have hc : gridCoords ⟨2, 2, 0, 10, 10, 10⟩ 0 0 = (0, 1) := by
    have h1 : ((⌊(180 : ℚ) / 360⌋ : ℤ) : ℚ) = 0 := by norm_num
    have h2 : ((⌊(360 : ℚ) / 360⌋ : ℤ) : ℚ) = 1 := by norm_num
    simp only [gridCoords, normalizeLon, jsmodQ, ratTrunc]
    norm_num [h1, h2]
  exact (windAt_row_missing ⟨2, 2, 0, 10, 10, 10⟩
    [some 0, some 10, some 3, some 7] [some 1, some 1, some 1, some 1] 0 0
    (by decide) (by rw [hc]; norm_num) (by decide) (by decide)
    (by rw [hc]; norm_num)).1

/-- Counterexample to C9 as stated: on a short partial grid
(`nx = 3`, `dx = 1`, `lo1 = 359`) the JS remainder `(i + nx) % nx` is
negative for the very negative column coordinate `i0 = -8`, so the four
gathered indices alias in-range cells of other rows; sampling at `lat = 0`
needs row `j0 + 1 = 2` outside `[0, ny - 1] = [0, 1]`, yet the sampler
returns the finite value `(some 2, some 20)` instead of missing. -/
theorem windAt_row_alias_counterexample :
    (⟨3, 2, 359, 10, 1, 10⟩ : GridMeta).ny - 1
      < ⌊(gridCoords ⟨3, 2, 359, 10, 1, 10⟩ (-9) 0).2⌋ + 1 ∧
    windAt ⟨3, 2, 359, 10, 1, 10⟩
      [some 1, some 2, some 3, some 4, some 5, some 6]
      [some 10, some 20, some 30, some 40, some 50, some 60] (-9) 0
      = (some 2, some 20) := by
  have hc : gridCoords ⟨3, 2, 359, 10, 1, 10⟩ (-9) 0 = (-8, 1) := by
    have h1 : ((⌊(171 : ℚ) / 360⌋ : ℤ) : ℚ) = 0 := by norm_num
    have h2 : ((⌈(-8 : ℚ) / 360⌉ : ℤ) : ℚ) = 0 := by norm_num
    simp only [gridCoords, normalizeLon, jsmodQ, ratTrunc]
    norm_num [h1, h2]
  constructor
  · rw [hc]
    norm_num
  · rw [windAt, hc]
    norm_num
    rw [show gather ⟨3, 2, 359, 10, 1, 10⟩
        [some 1, some 2, some 3, some 4, some 5, some 6] 1 (-8)
        = (some 2, some 3, some 5, some 6) from by decide,
      show gather ⟨3, 2, 359, 10, 1, 10⟩
        [some 10, some 20, some 30, some 40, some 50, some 60] 1 (-8)
        = (some 20, some 30, some 50, some 60) from by decide]
    rw [interp4_zero_offsets, interp4_zero_offsets]
    exact ⟨rfl, rfl⟩

theorem loadWindLevels_go (sqrtO : ℚ → ℚ) (files : List (List WindObj))
    (acc : List WindLevel) :
    (files.foldl
      (fun next file =>
        match file[0]?, file[1]? with
        | some vObj, some uObj =>
            next ++ [{ label := mkLabel vObj.header, U := uObj.data, V := vObj.data,
                       S := computeS sqrtO uObj.data vObj.data }]
        | _, _ => next) acc).length
      = acc.length + (files.filter fun f => 2 ≤ f.length).length := by
  induction files generalizing acc with
  | nil => simp
  | cons f t ih =>
      rw [List.foldl_cons]
      rcases f with _ | ⟨v1, _ | ⟨u1, rest⟩⟩ <;>
        simp [List.filter_cons, ih] <;> omega

theorem loadTempLevels_go (tfiles : List (Option TempObj)) (acc : List TempLevel) :
    (tfiles.foldl
      (fun next fo =>
        match fo with
        | some tObj =>
            match tObj.header, tObj.data with
            | some h, some d => next ++ [{ label := mkLabel h, T := d }]
            | _, _ => next
        | none => next) acc).length
      = acc.length
        + (tfiles.filter fun fo =>
            (fo.map fun t => t.header.isSome && t.data.isSome).getD false).length := by
  induction tfiles generalizing acc with
  | nil => simp
  | cons f t ih =>
      rw [List.foldl_cons]
      rcases f with _ | ⟨_ | h1, _ | d1⟩ <;>
        simp [List.filter_cons, ih] <;> omega

/-- C3 (amended): the loaders never inspect the grid header or the data
length.  A wind level is excluded exactly when its parsed file array lacks
the object at index 0 or index 1 (`if (!vObj || !uObj) continue`); a
temperature level exactly when the fetch threw or the object, its
`header`, or its `data` is absent.  Malformed headers (`nx < 2`,
`dx ≤ 0`, mismatched array length) are loaded like any other level. -/
theorem load_levels_filter (sqrtO : ℚ → ℚ) (files : List (List WindObj))
    (tfiles : List (Option TempObj)) :
    (loadWindLevels sqrtO files).length
      = (files.filter fun f => 2 ≤ f.length).length ∧
    (loadTempLevels tfiles).length
      = (tfiles.filter fun fo =>
          (fo.map fun t => t.header.isSome && t.data.isSome).getD false).length := by
  constructor
  · simpa using loadWindLevels_go sqrtO files []
  · simpa using loadTempLevels_go tfiles []

/-- Counterexample to C3 as stated: a level whose header is malformed in
all three cited ways (`nx = 1 < 2`, `dx = 0 ≤ 0`, data length `1 ≠ nx*ny`)
is not rejected: the wind loader still pushes it into the active set. -/
theorem load_malformed_counterexample :
    ((⟨1, 3, 0, 0, 0, 1, 100, 500⟩ : WindHeader).nx < 2 ∧
     (⟨1, 3, 0, 0, 0, 1, 100, 500⟩ : WindHeader).dx ≤ 0 ∧
     (([some 1] : List Sample).length : ℤ)
       ≠ (⟨1, 3, 0, 0, 0, 1, 100, 500⟩ : WindHeader).nx
           * (⟨1, 3, 0, 0, 0, 1, 100, 500⟩ : WindHeader).ny) ∧
    (loadWindLevels (fun _ => 0)
      [[⟨⟨1, 3, 0, 0, 0, 1, 100, 500⟩, [some 1]⟩,
        ⟨⟨1, 3, 0, 0, 0, 1, 100, 500⟩, [some 1]⟩]]).length = 1 := by
  refine ⟨⟨by norm_num, by norm_num, by norm_num⟩, rfl⟩

/-- Counterexample to C7 as stated: the drawn segment's alpha is not full
during the first half of the particle's life — at age 150 (with
`PARTICLE_LIFE = 601`, well inside the first half) the alpha is
`466/601 ≈ 0.775`, not 1; moreover the stroke colour ignores the sampled
wind entirely. -/
theorem trail_alpha_counterexample :
    trailAlpha 150 = 466 / 601 ∧ (466 / 601 : ℚ) ≠ 1 ∧
    (150 : ℚ) < PARTICLE_LIFE / 2 ∧
    trailColor OverlayMode.wind 100 0 = trailColor OverlayMode.wind 0 0 := by
  refine ⟨?_, by norm_num, by norm_num [PARTICLE_LIFE], rfl⟩
  rw [trailAlpha, min_eq_right (by norm_num [PARTICLE_LIFE])]
  norm_num [PARTICLE_LIFE]

/-- C7 (amended): the segment's stroke colour is a constant white,
independent of the sampled wind — `rgba(255,255,255,0.9)` in temperature
mode and `rgba(255,255,255,0.7)` otherwise — and the segment alpha fades
linearly with age over the whole lifetime,
`alpha = 0.1 + 0.9 * (LIFE - age) / LIFE`, from 1 at age 0 down to 0.1 at
age `LIFE` (the `min 1` clamp never binds for ages ≥ 0). -/
theorem trail_render_constant (mode : OverlayMode) (u v u2 v2 age : ℚ)
    (h0 : 0 ≤ age) :
    trailColor mode u v = trailColor mode u2 v2 ∧
    trailColor mode u v
      = (if mode = OverlayMode.temperature then (255, 255, 255, 0.9)
         else (255, 255, 255, 0.7)) ∧
    trailAlpha age = 0.1 + (PARTICLE_LIFE - age) / PARTICLE_LIFE * 0.9 ∧
    trailAlpha 0 = 1 ∧ trailAlpha PARTICLE_LIFE = 0.1 := by
  refine ⟨rfl, rfl, ?_, ?_, ?_⟩
  · rw [trailAlpha]
    apply min_eq_right
    have hdiv : (PARTICLE_LIFE - age) / PARTICLE_LIFE ≤ 1 := by
      rw [div_le_one (by norm_num [PARTICLE_LIFE])]
      norm_num [PARTICLE_LIFE]
      linarith
    linarith
  · rw [trailAlpha,
      show (0.1 + (PARTICLE_LIFE - 0) / PARTICLE_LIFE * 0.9 : ℚ) = 1 by
        norm_num [PARTICLE_LIFE], min_self]
  · rw [trailAlpha, min_eq_right (by norm_num [PARTICLE_LIFE])]
    norm_num [PARTICLE_LIFE]

/-- Witness for the amended C7 at age 150 in wind mode. -/
theorem trail_render_constant_witness :
    trailAlpha 150 = 0.1 + (PARTICLE_LIFE - 150) / PARTICLE_LIFE * 0.9 ∧
    trailColor OverlayMode.wind 3 4 = trailColor OverlayMode.wind 0 0 :=
  ⟨(trail_render_constant OverlayMode.wind 3 4 0 0 150 (by norm_num)).2.2.1,
   (trail_render_constant OverlayMode.wind 3 4 0 0 150 (by norm_num)).1⟩

/-- C8: `tempColorScale` treats any value above 100 as Kelvin and
subtracts 273.15; the clamp keeps temperatures in `[-80, 50]`; input 300
converts to 26.85 °C, whose normalized position lies in the Yellow-to-
Orange segment `[0.78, 0.86)` of the ramp, producing a red channel of
exactly 255 for every alpha; a non-finite input yields transparent
black. -/
theorem tempColorScale_kelvin_scenario :
    (∀ v : ℚ, v > 100 → tempToC v = v - 273.15) ∧
    (∀ v : ℚ, -80 ≤ clampTemp v ∧ clampTemp v ≤ 50) ∧
    tempToC 300 = 26.85 ∧
    (0.78 ≤ tempT 300 ∧ tempT 300 < 0.86) ∧
    (∀ alpha : ℚ, (tempColorScale (some 300) alpha).1 = 255) ∧
    (∀ alpha : ℚ, tempColorScale none alpha = (0, 0, 0, 0)) := by
  have htC : tempToC 300 = 26.85 := by norm_num [tempToC]
  have ht : tempT 300 = 106.85 / 130 := by
    rw [tempT, htC, clampTemp, min_eq_right (by norm_num), max_eq_right (by norm_num)]
    norm_num
  refine ⟨?_, ?_, htC, ?_, ?_, fun _ => rfl⟩
  · intro v hv
    simp [tempToC, hv]
  · intro v
    exact ⟨le_max_left _ _, max_le (by norm_num) (min_le_left _ _)⟩
  · rw [ht]
    constructor <;> norm_num
  · intro alpha
    show (tempRGB (tempT 300)).1 = 255
    rw [ht]
    norm_num [tempRGB, jround]

/-- Witness for C8 applying the Kelvin rule and red-channel scenario at
the concrete input 300 with the overlay's alpha. -/
theorem tempColorScale_kelvin_scenario_witness :
    tempToC 300 = 300 - 273.15 ∧
    (tempColorScale (some 300) TEMP_OVERLAY_ALPHA).1 = 255 :=
  ⟨tempColorScale_kelvin_scenario.1 300 (by norm_num),
   tempColorScale_kelvin_scenario.2.2.2.2.1 TEMP_OVERLAY_ALPHA⟩

theorem neighbors_scenario_hole :
    (neighborSamples ⟨2, 2, 0, 10, 10, 10⟩ [some 0, none, some 0, some 10] 5 5).2.1
      = none := by
  have hc : gridCoords ⟨2, 2, 0, 10, 10, 10⟩ 5 5 = (1/2, 1/2) := by
    have h1 : ((⌊(185 : ℚ) / 360⌋ : ℤ) : ℚ) = 0 := by norm_num
    have h2 : ((⌊(365 : ℚ) / 360⌋ : ℤ) : ℚ) = 1 := by norm_num
    simp only [gridCoords, normalizeLon, jsmodQ, ratTrunc]
    norm_num [h1, h2]
  simp only [neighborSamples]
  rw [hc]
  rw [show (⌊(1/2 : ℚ)⌋ : ℤ) = 0 by norm_num]
  decide

/-- C5 (amended): a particle is destroyed and replaced by a fresh random
one (`lon = 360·r1 − 180`, `lat = 180·r2 − 90`, `age = 0`, trail cleared)
exactly when its field sample is missing or its incremented age exceeds
`PARTICLE_LIFE`; a pole crossing does not recycle — the particle survives
with its age incremented (its latitude merely clamped and longitude
renormalized). -/
theorem step_recycle_conditions (cosd : ℚ → ℚ) (m : GridMeta) (U V : List Sample)
    (visible : ℚ → ℚ → Bool) (project : ℚ → ℚ → Option (ℚ × ℚ)) (r1 r2 : ℚ)
    (p : Particle) :
    ((windAt m U V p.lon p.lat).1 = none ∨ (windAt m U V p.lon p.lat).2 = none →
      stepParticle cosd m U V visible project r1 r2 p = (spawnParticle r1 r2, none)) ∧
    (p.age + 1 > PARTICLE_LIFE →
      stepParticle cosd m U V visible project r1 r2 p = (spawnParticle r1 r2, none)) ∧
    (spawnParticle r1 r2).age = 0 ∧
    (spawnParticle r1 r2).lon = r1 * 360 - 180 ∧
    (spawnParticle r1 r2).lat = r2 * 180 - 90 ∧
    ((windAt m U V p.lon p.lat).1 ≠ none → (windAt m U V p.lon p.lat).2 ≠ none →
      ¬ p.age + 1 > PARTICLE_LIFE →
      (stepParticle cosd m U V visible project r1 r2 p).1.age = p.age + 1) := by
  refine ⟨?_, ?_, rfl, rfl, rfl, ?_⟩
  · intro h
    unfold stepParticle
    rcases hw : windAt m U V p.lon p.lat with ⟨uo, vo⟩
    rw [hw] at h
    rcases uo with _ | u
    · rfl
    rcases vo with _ | v
    · rfl
    simp at h
  · intro h
    unfold stepParticle
    rcases hw : windAt m U V p.lon p.lat with ⟨uo, vo⟩
    rcases uo with _ | u
    · rfl
    rcases vo with _ | v
    · rfl
    simp only [stepAdvect]
    rw [if_pos h]
  · intro h1 h2 h3
    unfold stepParticle
    rcases hw : windAt m U V p.lon p.lat with ⟨uo, vo⟩
    rw [hw] at h1 h2
    rcases uo with _ | u
    · exact absurd rfl h1
    rcases vo with _ | v
    · exact absurd rfl h2
    simp only [stepAdvect]
    rw [if_neg h3]
    repeat' split
    all_goals rfl

/-- Witness for the amended C5: a particle sitting on a missing sample is
recycled to the fresh random particle with age 0. -/
theorem step_recycle_conditions_witness :
    stepParticle (fun _ => 1) ⟨2, 2, 0, 10, 10, 10⟩ [some 0, none, some 0, some 10]
      [some 1, some 1, some 1, some 1] (fun _ _ => true) (fun _ _ => Option.none)
      (1/2) (1/3) ⟨5, 5, 0⟩ = (spawnParticle (1/2) (1/3), none) ∧
    (spawnParticle (1/2) (1/3)).age = 0 := by
  refine ⟨?_, (step_recycle_conditions (fun _ => 1) ⟨2, 2, 0, 10, 10, 10⟩
    [some 0, none, some 0, some 10] [some 1, some 1, some 1, some 1]
    (fun _ _ => true) (fun _ _ => Option.none) (1/2) (1/3) ⟨5, 5, 0⟩).2.2.1⟩
  apply (step_recycle_conditions (fun _ => 1) ⟨2, 2, 0, 10, 10, 10⟩
    [some 0, none, some 0, some 10] [some 1, some 1, some 1, some 1]
    (fun _ _ => true) (fun _ _ => Option.none) (1/2) (1/3) ⟨5, 5, 0⟩).1
  left
  exact interp4_none _ _ (Or.inr (Or.inl neighbors_scenario_hole))

theorem windAt_pole_grid (vval : ℚ) :
    windAt ⟨2, 3, 0, 90, 180, 1/2⟩ (List.replicate 6 (some 0))
      (List.replicate 6 (some vval)) 0 89.5 = (some 0, some vval) := by
  have hc : gridCoords ⟨2, 3, 0, 90, 180, 1/2⟩ 0 89.5 = (0, 1) := by
    have h1 : ((⌊(180 : ℚ) / 360⌋ : ℤ) : ℚ) = 0 := by norm_num
    have h2 : ((⌊(360 : ℚ) / 360⌋ : ℤ) : ℚ) = 1 := by norm_num
    simp only [gridCoords, normalizeLon, jsmodQ, ratTrunc]
    norm_num [h1, h2]
  rw [windAt, hc]
  norm_num
  rw [show gather ⟨2, 3, 0, 90, 180, 1/2⟩ (List.replicate 6 (some 0)) 1 0
      = (some 0, some 0, some 0, some 0) from rfl,
    show gather ⟨2, 3, 0, 90, 180, 1/2⟩ (List.replicate 6 (some vval)) 1 0
      = (some vval, some vval, some vval, some vval) from rfl]
  rw [interp4_zero_offsets, interp4_zero_offsets]
  exact ⟨rfl, rfl⟩

/-- Counterexample to C5 as stated: a particle whose latitude update
crosses the pole (89.5° + 1° = 90.5° > 90°) is not destroyed and
replaced — it survives with clamped latitude 89.999 and age 1 ≠ 0. -/
theorem step_pole_no_recycle_counterexample :
    stepParticle (fun _ => 1) ⟨2, 3, 0, 90, 180, 1/2⟩ (List.replicate 6 (some 0))
      (List.replicate 6 (some 125)) (fun _ _ => false) (fun _ _ => Option.none)
      (1/2) (1/2) ⟨0, 89.5, 0⟩ = (⟨0, 89.999, 1⟩, none) ∧
    (89.5 : ℚ) + 125 * SPEED_FACTOR > 90 ∧
    (⟨0, 89.999, 1⟩ : Particle).age ≠ 0 := by
  refine ⟨?_, by norm_num [SPEED_FACTOR], by norm_num⟩
  unfold stepParticle
  rw [show (⟨0, 89.5, 0⟩ : Particle).lon = 0 from rfl,
    show (⟨0, 89.5, 0⟩ : Particle).lat = 89.5 from rfl, windAt_pole_grid 125]
  show stepAdvect (fun _ => 1) (fun _ _ => false) (fun _ _ => Option.none)
      (1/2) (1/2) ⟨0, 89.5, 0⟩ 0 125 = (⟨0, 89.999, 1⟩, none)
  have h1 : ((⌊(180 : ℚ) / 360⌋ : ℤ) : ℚ) = 0 := by norm_num
  simp only [stepAdvect]
  norm_num [jsmodQ, ratTrunc, SPEED_FACTOR, PARTICLE_LIFE, h1]

/-- C6 (amended): the stored latitude always lies in the **closed**
interval `[-90, 90]`: a latitude update that strictly exceeds ±90° is
clamped to ±89.999, an update landing exactly on ±90° is stored as is,
and fresh spawns (with `r2 ∈ [0,1)`) lie in `[-90, 90)`. -/
theorem lat_closed_interval_invariant (cosd : ℚ → ℚ) (m : GridMeta) (U V : List Sample)
    (visible : ℚ → ℚ → Bool) (project : ℚ → ℚ → Option (ℚ × ℚ))
    (r1 r2 r3 : ℚ) (p : Particle) (hr2a : 0 ≤ r2) (hr2b : r2 < 1) :
    (-90 ≤ (stepParticle cosd m U V visible project r1 r2 p).1.lat ∧
      (stepParticle cosd m U V visible project r1 r2 p).1.lat ≤ 90) ∧
    (-90 ≤ (spawnParticle r1 r2).lat ∧ (spawnParticle r1 r2).lat < 90) ∧
    (-90 ≤ (initParticle r1 r2 r3).lat ∧ (initParticle r1 r2 r3).lat < 90) := by
  have hmul1 : (0 : ℚ) ≤ r2 * 180 := mul_nonneg hr2a (by norm_num)
  have hmul2 : r2 * 180 < 180 := by
    have := mul_lt_mul_of_pos_right hr2b (show (0 : ℚ) < 180 by norm_num)
    linarith [this]
  have hspawn : -90 ≤ (spawnParticle r1 r2).lat ∧ (spawnParticle r1 r2).lat < 90 := by
    simp only [spawnParticle]
    constructor <;> [linarith; linarith]
  have hinit : -90 ≤ (initParticle r1 r2 r3).lat ∧ (initParticle r1 r2 r3).lat < 90 := by
    simp only [initParticle]
    constructor <;> [linarith; linarith]
  refine ⟨?_, hspawn, hinit⟩
  have hbound : ∀ L : ℚ,
      -90 ≤ (if L > 90 ∨ L < -90 then max (-89.999) (min 89.999 L) else L) ∧
      (if L > 90 ∨ L < -90 then max (-89.999) (min 89.999 L) else L) ≤ 90 := by
    intro L
    split
    · exact ⟨le_trans (by norm_num) (le_max_left _ _),
        max_le (by norm_num) (le_trans (min_le_left _ _) (by norm_num))⟩
    · rename_i h
      push_neg at h
      exact ⟨by linarith [h.2], by linarith [h.1]⟩
  unfold stepParticle
  rcases hw : windAt m U V p.lon p.lat with ⟨uo, vo⟩
  rcases uo with _ | u
  · exact ⟨hspawn.1, le_of_lt hspawn.2⟩
  rcases vo with _ | v
  · exact ⟨hspawn.1, le_of_lt hspawn.2⟩
  simp only [stepAdvect]
  split
  · exact ⟨hspawn.1, le_of_lt hspawn.2⟩
  have hb := hbound (p.lat + v * SPEED_FACTOR)
  set L := (if p.lat + v * SPEED_FACTOR > 90 ∨ p.lat + v * SPEED_FACTOR < -90
    then max (-89.999) (min 89.999 (p.lat + v * SPEED_FACTOR))
    else p.lat + v * SPEED_FACTOR) with hL
  repeat' split
  all_goals exact hb

/-- Witness for the amended C6 at a concrete particle, grid and random
draw. -/
theorem lat_closed_interval_invariant_witness :
    -90 ≤ (stepParticle (fun _ => 1) ⟨2, 2, 0, 10, 10, 10⟩
      [some 0, some 10, some 0, some 10] [some 1, some 1, some 1, some 1]
      (fun _ _ => false) (fun _ _ => Option.none) 0 (1/2) ⟨0, 0, 0⟩).1.lat ∧
    (stepParticle (fun _ => 1) ⟨2, 2, 0, 10, 10, 10⟩
      [some 0, some 10, some 0, some 10] [some 1, some 1, some 1, some 1]
      (fun _ _ => false) (fun _ _ => Option.none) 0 (1/2) ⟨0, 0, 0⟩).1.lat ≤ 90 :=
  (lat_closed_interval_invariant (fun _ => 1) ⟨2, 2, 0, 10, 10, 10⟩
    [some 0, some 10, some 0, some 10] [some 1, some 1, some 1, some 1]
    (fun _ _ => false) (fun _ _ => Option.none) 0 (1/2) (1/2) ⟨0, 0, 0⟩
    (by norm_num) (by norm_num)).1

/-- Counterexample to C6 as stated: a latitude update landing exactly on
90° (89.5° + 62.5·0.008 = 90°) is not clamped (the clamp requires a
strict excess) and the particle is stored with latitude 90, which is not
strictly inside `(-90, 90)`.  -/
theorem step_lat_boundary_counterexample :
    (stepParticle (fun _ => 1) ⟨2, 3, 0, 90, 180, 1/2⟩ (List.replicate 6 (some 0))
      (List.replicate 6 (some 62.5)) (fun _ _ => false) (fun _ _ => Option.none)
      (1/2) (1/2) ⟨0, 89.5, 0⟩).1.lat = 90 ∧
    ¬ ((-90 : ℚ) < 90 ∧ (90 : ℚ) < 90) := by
  refine ⟨?_, by norm_num⟩
  unfold stepParticle
  rw [show (⟨0, 89.5, 0⟩ : Particle).lon = 0 from rfl,
    show (⟨0, 89.5, 0⟩ : Particle).lat = 89.5 from rfl, windAt_pole_grid 62.5]
  show (stepAdvect (fun _ => 1) (fun _ _ => false) (fun _ _ => Option.none)
      (1/2) (1/2) ⟨0, 89.5, 0⟩ 0 62.5).1.lat = 90
  have h1 : ((⌊(180 : ℚ) / 360⌋ : ℤ) : ℚ) = 0 := by norm_num
  simp only [stepAdvect]
  norm_num [jsmodQ, ratTrunc, SPEED_FACTOR, PARTICLE_LIFE, h1]

theorem blockStarts_nodup (bound step : ℕ) : (blockStarts bound step).Nodup :=
  (List.nodup_range bound).filter _

theorem mem_blockStarts {bound step x : ℕ} :
    x ∈ blockStarts bound step ↔ x < bound ∧ x % step = 0 := by
  simp [blockStarts]

theorem owner_spec (step p : ℕ) (hs : 0 < step) :
    (p - p % step) % step = 0 ∧ p - p % step ≤ p ∧ p < (p - p % step) + step := by
  have hd := Nat.div_add_mod p step
  have hm : p % step < step := Nat.mod_lt _ hs
  have he : p - p % step = step * (p / step) := by omega
  refine ⟨?_, Nat.sub_le _ _, by omega⟩
  rw [he]
  exact Nat.mul_mod_right _ _

theorem owner_unique {step p x : ℕ} (hs : 0 < step) (hm : x % step = 0)
    (h1 : x ≤ p) (h2 : p < x + step) : x = p - p % step := by
  have hq : step * (x / step) = x := Nat.mul_div_cancel' (Nat.dvd_of_mod_eq_zero hm)
  have h1' : (x / step) * step ≤ p := by
    calc (x / step) * step = step * (x / step) := Nat.mul_comm _ _
      _ = x := hq
      _ ≤ p := h1
  have h2' : p < (x / step + 1) * step := by
    have hh : (x / step + 1) * step = step * (x / step) + step := by ring
    rw [hh, hq]
    omega
  have hdiv : p / step = x / step := Nat.div_eq_of_lt_le h1' h2'
  have hreq : step * (p / step) = x := by rw [hdiv, hq]
  have hd := Nat.div_add_mod p step
  rw [hreq] at hd
  omega

theorem writeBlock_apply_out (width height step : ℕ) (c : RGBA) (x y px py : ℕ)
    (buf : Buffer)
    (h : ¬ (x ≤ px ∧ px < x + step ∧ px < width ∧ y ≤ py ∧ py < y + step ∧ py < height)) :
    writeBlock width height step c x y buf px py = buf px py := by
  unfold writeBlock
  rw [if_neg h]

theorem writeBlock_apply_in (width height step : ℕ) (c : RGBA) (x y px py : ℕ)
    (buf : Buffer)
    (h : x ≤ px ∧ px < x + step ∧ px < width ∧ y ≤ py ∧ py < y + step ∧ py < height) :
    writeBlock width height step c x y buf px py = c := by
  unfold writeBlock
  rw [if_pos h]

theorem processBlock_untouched (sqrtO : ℚ → ℚ) (shade : Vec3 → Option RGBA)
    (camPos : Vec3) (ray : ℕ → ℕ → Vec3) (width height step : ℕ) (buf : Buffer)
    (x y px py : ℕ)
    (h : ¬ (x ≤ px ∧ px < x + step) ∨ ¬ (y ≤ py ∧ py < y + step)) :
    processBlock sqrtO shade camPos ray width height step buf x y px py = buf px py := by
  unfold processBlock
  cases overlayBlockColor sqrtO shade camPos (ray x y) with
  | none => rfl
  | some c => exact writeBlock_apply_out _ _ _ _ _ _ _ _ _ (by tauto)

theorem foldl_pixel_untouched {β : Type} (g : Buffer → β → Buffer) (l : List β)
    (px py : ℕ) (b : Buffer)
    (hpres : ∀ x ∈ l, ∀ bb : Buffer, g bb x px py = bb px py) :
    l.foldl g b px py = b px py := by
  induction l generalizing b with
  | nil => rfl
  | cons a t ih =>
      rw [List.foldl_cons,
        ih (g b a) (fun x hx bb => hpres x (List.mem_cons_of_mem a hx) bb)]
      exact hpres a (List.mem_cons_self a t) b

theorem foldl_pixel_write {β : Type} (g : Buffer → β → Buffer) (x0 : β)
    (px py : ℕ) (c : RGBA) :
    ∀ l : List β, l.Nodup → x0 ∈ l →
      (∀ x ∈ l, x ≠ x0 → ∀ bb : Buffer, g bb x px py = bb px py) →
      (∀ bb : Buffer, g bb x0 px py = c) →
      ∀ b : Buffer, l.foldl g b px py = c := by
  intro l
  induction l with
  | nil => intro _ hmem _ _ _; exact absurd hmem (List.not_mem_nil x0)
  | cons a t ih =>
      intro hl hmem hpres hwr b
      rw [List.foldl_cons]
      by_cases ha : a = x0
      · subst ha
        have hnot : a ∉ t := (List.nodup_cons.mp hl).1
        rw [foldl_pixel_untouched g t px py (g b a)
          (fun x hx bb => hpres x (List.mem_cons_of_mem a hx)
            (fun he => hnot (he ▸ hx)) bb)]
        exact hwr b
      · exact ih (List.nodup_cons.mp hl).2
          (List.mem_of_ne_of_mem (fun he => ha he.symm) hmem)
          (fun x hx hne bb => hpres x (List.mem_cons_of_mem a hx) hne bb)
          hwr (g b a)

theorem renderOverlay_pixel (sqrtO : ℚ → ℚ) (shade : Vec3 → Option RGBA)
    (camPos : Vec3) (ray : ℕ → ℕ → Vec3) (width height step px py : ℕ)
    (hs : 0 < step) (hx : px < width) (hy : py < height) :
    renderAirModeOverlay sqrtO shade camPos ray width height step px py
      = (overlayBlockColor sqrtO shade camPos
          (ray (px - px % step) (py - py % step))).getD transparentRGBA := by
  have hpx := owner_spec step px hs
  have hpy := owner_spec step py hs
  have hx0mem : px - px % step ∈ blockStarts width step :=
    mem_blockStarts.mpr ⟨lt_of_le_of_lt hpx.2.1 hx, hpx.1⟩
  have hy0mem : py - py % step ∈ blockStarts height step :=
    mem_blockStarts.mpr ⟨lt_of_le_of_lt hpy.2.1 hy, hpy.1⟩
  have hcol : ∀ x ∈ blockStarts width step, x ≠ px - px % step →
      ¬ (x ≤ px ∧ px < x + step) := by
    intro x hxm hne hcontra
    exact hne (owner_unique hs (mem_blockStarts.mp hxm).2 hcontra.1 hcontra.2)
  have hrow : ∀ y ∈ blockStarts height step, y ≠ py - py % step →
      ¬ (y ≤ py ∧ py < y + step) := by
    intro y hym hne hcontra
    exact hne (owner_unique hs (mem_blockStarts.mp hym).2 hcontra.1 hcontra.2)
  unfold renderAirModeOverlay
  cases hbc : overlayBlockColor sqrtO shade camPos
      (ray (px - px % step) (py - py % step)) with
  | some c =>
      simp only [Option.getD_some]
      apply foldl_pixel_write _ (px - px % step) px py c (blockStarts width step)
        (blockStarts_nodup _ _) hx0mem ?_ ?_
      · intro x hxm hne bb
        apply foldl_pixel_untouched
        intro y hym bb2
        exact processBlock_untouched _ _ _ _ _ _ _ _ _ _ _ _ (Or.inl (hcol x hxm hne))
      · intro bb
        apply foldl_pixel_write _ (py - py % step) px py c (blockStarts height step)
          (blockStarts_nodup _ _) hy0mem ?_ ?_
        · intro y hym hne bb2
          exact processBlock_untouched _ _ _ _ _ _ _ _ _ _ _ _ (Or.inr (hrow y hym hne))
        · intro bb2
          unfold processBlock
          rw [hbc]
          exact writeBlock_apply_in _ _ _ _ _ _ _ _ _
            ⟨hpx.2.1, hpx.2.2, hx, hpy.2.1, hpy.2.2, hy⟩
  | none =>
      simp only [Option.getD_none]
      apply foldl_pixel_untouched
      intro x hxm bb
      by_cases hxe : x = px - px % step
      · subst hxe
        apply foldl_pixel_untouched
        intro y hym bb2
        by_cases hye : y = py - py % step
        · subst hye
          unfold processBlock
          rw [hbc]
        · exact processBlock_untouched _ _ _ _ _ _ _ _ _ _ _ _ (Or.inr (hrow y hym hye))
      · apply foldl_pixel_untouched
        intro y hym bb2
        exact processBlock_untouched _ _ _ _ _ _ _ _ _ _ _ _ (Or.inl (hcol x hxm hxe))

/-- C10: in an overlay recomputation pass, a pixel whose owning sample
ray fails any of the three tests — non-negative discriminant, strictly
positive nearest root, or surface-normal/camera dot product above the
0.1 tolerance — is left fully transparent black `(0,0,0,0)`; conversely a
pixel that ends up non-transparent had an owning ray passing all three
tests.  `d` is the owning block's ray direction. -/
theorem overlay_guard_tests (sqrtO : ℚ → ℚ) (shade : Vec3 → Option RGBA)
    (camPos : Vec3) (ray : ℕ → ℕ → Vec3) (width height step px py : ℕ)
    (hs : 0 < step) (hx : px < width) (hy : py < height) (d : Vec3)
    (hd : d = ray (px - px % step) (py - py % step)) :
    (¬ sphereDisc camPos d ≥ 0 ∨ ¬ sphereNearT sqrtO camPos d > 0 ∨
        ¬ dot3 (normalizeV sqrtO (sphereHit sqrtO camPos d))
            (normalizeV sqrtO camPos) > 0.1 →
      renderAirModeOverlay sqrtO shade camPos ray width height step px py
        = transparentRGBA) ∧
    (renderAirModeOverlay sqrtO shade camPos ray width height step px py
        ≠ transparentRGBA →
      sphereDisc camPos d ≥ 0 ∧ sphereNearT sqrtO camPos d > 0 ∧
        dot3 (normalizeV sqrtO (sphereHit sqrtO camPos d))
          (normalizeV sqrtO camPos) > 0.1) := by
  subst hd
  have hpix := renderOverlay_pixel sqrtO shade camPos ray width height step px py hs hx hy
  constructor
  · intro h
    have hb : overlayBlockColor sqrtO shade camPos
        (ray (px - px % step) (py - py % step)) = none := by
      simp only [overlayBlockColor]
      split_ifs with h1 h2 h3
      · tauto
      all_goals rfl
    rw [hpix, hb]
    rfl
  · intro h
    rw [hpix] at h
    cases hbc : overlayBlockColor sqrtO shade camPos
        (ray (px - px % step) (py - py % step)) with
    | none =>
        rw [hbc] at h
        exact absurd rfl h
    | some c =>
        simp only [overlayBlockColor] at hbc
        split_ifs at hbc with h1 h2 h3
        · exact ⟨h1, h2, h3⟩
        all_goals exact Option.noConfusion hbc

/-- Witness for C10: a one-pixel pass whose single ray points away from
the globe (the nearest root is −650 ≤ 0) leaves the pixel transparent. -/
theorem overlay_guard_tests_witness :
    renderAirModeOverlay (fun _ => 400) (fun _ => some (255, 0, 0, 255)) ⟨0, 0, 450⟩
      (fun _ _ => ⟨0, 0, 1⟩) 1 1 1 0 0 = transparentRGBA := by
  apply (overlay_guard_tests (fun _ => 400) (fun _ => some (255, 0, 0, 255)) ⟨0, 0, 450⟩
    (fun _ _ => ⟨0, 0, 1⟩) 1 1 1 0 0 (by norm_num) (by norm_num) (by norm_num)
    ⟨0, 0, 1⟩ rfl).1
  right
  left
  norm_num [sphereNearT, sphereB, sphereDisc, dot3, GLOBE_RADIUS]

end Skyplot
